import Mathlib

/-!
# Bidding and auction-lifecycle engine: a shallow embedding

This file embeds the bidding engine of the E-bid auction marketplace
(`backend/routes/bids.js` and `backend/utils/scheduler.js`) in Lean and
proves or refutes the specified properties of the engine.

Modelling conventions:

* Monetary amounts are integers in **cents** (so the source's
  `0.01` dollar validator floor is `1` and the `1.00` dollar
  `minBidIncrement` is `100`); timestamps are integers in JavaScript
  epoch **milliseconds**.  All monetary values appearing in the spec and
  its examples are whole cents, so this scaling is exact.
* The bid ledger of one auction is a `List Bid` in creation order
  (`created_at` ascending), so SQL `ORDER BY created_at DESC LIMIT 1`
  is the last matching element of the list.
* Database writes inside one request transaction are modelled by
  returning the updated `AuctionState`; a `ROLLBACK` returns the input
  state unchanged.
* JavaScript truthiness on numeric columns (`auction.buy_now_price`,
  `auction.reserve_price`, and the scheduler's `winner_id` /
  `winning_bid` subquery results) is modelled by explicit `≠ 0` /
  `Option` tests.
* The `bid_placed` event's `timeRemaining` field is the source's
  `(end_time − now) / 1000` seconds; on the exact millisecond multiples
  used throughout, integer division agrees with the source's float
  division.
-/

namespace EBid

/-- Auction lifecycle status values occurring in the source
(`'active'`, `'sold'` from the buy-now branch, `'completed'` / `'ended'`
from the scheduler, `'cancelled'`, `'draft'`). -/
inductive Status where
  | active
  | sold
  | completed
  | ended
  | cancelled
  | draft
  deriving DecidableEq, Repr

/-- One row of the `bids` table, for a fixed auction.  `maxBid` models the
nullable `max_bid` column (the buy-now branch inserts a bid without it). -/
structure Bid where
  bidderId : Nat
  amount : ℤ
  maxBid : Option ℤ
  isWinning : Bool
  isAutoBid : Bool
  deriving DecidableEq, Repr

/-- The mutable columns of one `auctions` row that the bidding engine
reads or writes. -/
structure Auction where
  sellerId : Nat
  startingPrice : ℤ
  currentPrice : ℤ
  reservePrice : Option ℤ
  buyNowPrice : Option ℤ
  endTime : ℤ
  status : Status
  bidCount : Nat
  winnerId : Option Nat
  finalPrice : Option ℤ
  deriving DecidableEq, Repr

/-- The state of one auction: its row plus its bid ledger in creation
order. -/
structure AuctionState where
  auction : Auction
  bids : List Bid
  deriving DecidableEq, Repr

/-- Payload of the `bid_placed` socket event emitted on the normal path
(`bids.js` lines 201–211).  `timeRemaining` is in seconds. -/
structure BidPlacedEvent where
  amount : ℤ
  currentPrice : ℤ
  isWinning : Bool
  bidCount : Nat
  timeRemaining : ℤ
  deriving DecidableEq, Repr

/-- Outcome of one `POST /bids` request. -/
inductive BidResult where
  | validationFailed
  | auctionNotFoundOrEnded
  | selfBidRejected
  | invalidBidAmount (minimumBid : ℤ)
  | buyNowSuccess (finalPrice : ℤ)
  | placed (ev : BidPlacedEvent)
  deriving DecidableEq, Repr

/-- An `orders` row created by the scheduler when an auction completes
with a sale (the downstream settlement signal). -/
structure Order where
  sellerId : Nat
  buyerId : Nat
  amount : ℤ
  deriving DecidableEq, Repr

/-- `minBidIncrement` constant of `bids.js` line 56 (`1.00` dollars,
i.e. 100 cents). -/
def minBidIncrement : ℤ := 100

/-- The five-minute anti-snipe window in milliseconds
(`bids.js` line 173). -/
def fiveMinutesMs : ℤ := 5 * 60 * 1000

/-- Express-validator payload checks of `bids.js` lines 12–14: the
amount, and the max bid when present, must be at least `0.01` dollars
(one cent). -/
def invalidPayload (amount : ℤ) (maxBid : Option ℤ) : Bool :=
  decide (amount < 1) ||
    (match maxBid with
     | some m => decide (m < 1)
     | none => false)

/-- The row-selection guard of the `FOR UPDATE` query
(`bids.js` line 38): `status = 'active' AND end_time > NOW()`. -/
def auctionOpen (now : ℤ) (a : Auction) : Bool :=
  decide (a.status = Status.active) && decide (now < a.endTime)

/-- JavaScript truthiness test of `bids.js` line 68:
`auction.buy_now_price && amount >= auction.buy_now_price`. -/
def buyNowHit (buyNowPrice : Option ℤ) (amount : ℤ) : Bool :=
  match buyNowPrice with
  | some bn => !decide (bn = 0) && decide (bn ≤ amount)
  | none => false

/-- `SELECT * FROM bids WHERE is_winning = true ORDER BY created_at DESC
LIMIT 1` (`bids.js` lines 118–123): the most recent winning bid. -/
def lastWinning (bids : List Bid) : Option Bid :=
  bids.reverse.find? (fun b => b.isWinning)

/-- The tail shared by all three normal-path branches of the bid route:
the anti-snipe check against the end time read at the start of the
request (`bids.js` lines 171–181), the ledger insert of the new bid with
`max_bid = maxBid || amount` (lines 184–188), and the `bid_placed` event
(lines 201–211) whose `bidCount` is the pre-transaction count plus one
and whose `timeRemaining` is measured against the pre-extension end
time. -/
def finishBid (now : ℤ) (bidderId : Nat) (amount : ℤ) (maxBid : Option ℤ)
    (a0 : Auction) (a1 : Auction) (bids1 : List Bid)
    (newCurrentPrice : ℤ) (isWinningFlag : Bool) : BidResult × AuctionState :=
  let a2 := if a0.endTime - now < fiveMinutesMs then
      { a1 with endTime := now + fiveMinutesMs } else a1
  let newBid : Bid :=
    { bidderId := bidderId, amount := amount,
      maxBid := some (maxBid.getD amount),
      isWinning := isWinningFlag, isAutoBid := false }
  let ev : BidPlacedEvent :=
    { amount := amount, currentPrice := newCurrentPrice,
      isWinning := isWinningFlag, bidCount := a0.bidCount + 1,
      timeRemaining := max 0 ((a0.endTime - now) / 1000) }
  (BidResult.placed ev, { auction := a2, bids := bids1 ++ [newBid] })

/-- The proxy-bidding normal path of `bids.js` lines 117–239: resolve
the price and winner against the most recent winning bid, flip the
previous winner and bump `bid_count` on a takeover, update only the
price on an absorbed bid, then finish with anti-snipe, insert and
event. -/
def normalBid (now : ℤ) (bidderId : Nat) (amount : ℤ) (maxBid : Option ℤ)
    (s : AuctionState) : BidResult × AuctionState :=
  let a := s.auction
  match lastWinning s.bids with
  | some w =>
    let currentMaxBid := w.maxBid.getD w.amount
    let newMaxBid := maxBid.getD amount
    if newMaxBid ≤ currentMaxBid then
      let p := min (newMaxBid + minBidIncrement) currentMaxBid
      finishBid now bidderId amount maxBid a
        { a with currentPrice := p } s.bids p false
    else
      let p := min (currentMaxBid + minBidIncrement) newMaxBid
      finishBid now bidderId amount maxBid a
        { a with currentPrice := p, bidCount := a.bidCount + 1 }
        (s.bids.map (fun b =>
          if b.isWinning then { b with isWinning := false } else b))
        p true
  | none =>
    finishBid now bidderId amount maxBid a
      { a with currentPrice := amount, bidCount := a.bidCount + 1 }
      s.bids amount true

/-- `POST /bids` (`bids.js` lines 10–248): payload validation, the
active-auction guard, the self-bid check, the minimum-increment
validation, the buy-now short-circuit (which marks the auction sold at
the buy-now price, sets `end_time = NOW()`, and records a winning bid at
the buy-now price without touching the previous winning bid or
`bid_count`), and otherwise the proxy normal path.  Rejections
`ROLLBACK`, returning the state unchanged. -/
def placeBid (now : ℤ) (bidderId : Nat) (amount : ℤ) (maxBid : Option ℤ)
    (s : AuctionState) : BidResult × AuctionState :=
  let a := s.auction
  if invalidPayload amount maxBid then
    (BidResult.validationFailed, s)
  else if auctionOpen now a then
    if a.sellerId = bidderId then
      (BidResult.selfBidRejected, s)
    else if amount < a.currentPrice + minBidIncrement then
      (BidResult.invalidBidAmount (a.currentPrice + minBidIncrement), s)
    else if buyNowHit a.buyNowPrice amount then
      let bn := a.buyNowPrice.getD 0
      (BidResult.buyNowSuccess bn,
       { auction :=
           { a with currentPrice := bn, status := Status.sold,
                    winnerId := some bidderId, endTime := now },
         bids := s.bids ++
           [{ bidderId := bidderId, amount := bn, maxBid := none,
              isWinning := true, isAutoBid := false }] })
    else
      normalBid now bidderId amount maxBid s
  else
    (BidResult.auctionNotFoundOrEnded, s)

/-- The *idealized* reading of the scheduler's winner subqueries
(`scheduler.js` lines 89–90): `ORDER BY amount DESC, created_at ASC
LIMIT 1` over the whole ledger, *credited* with returning the highest
bid's bidder.  The source actually reads `bids.user_id`, a column the
bid route never writes (`bids.js` inserts `bidder_id`) and the
repository schema (`database.js`) does not define — see `winnerSubquery`
for the faithful column-level model.  This idealization is the reading
most favorable to the replayability claim and is used to refute it a
fortiori (C8). -/
def highestBid (bids : List Bid) : Option Bid :=
  bids.foldl (fun acc b =>
    match acc with
    | none => some b
    | some h => if h.amount < b.amount then some b else some h) none

/-- JavaScript truthiness test of `scheduler.js` line 117:
`!auction.reserve_price || auction.winning_bid >= auction.reserve_price`,
under the *numeric* reading of `>=`.  The source compares the two pg
`DECIMAL` values without `parseFloat`, i.e. as strings, which is
lexicographic (e.g. `"90.00" >= "200.00"` is true) — a further slip of
the same function, recorded under C3; the numeric reading is the one
the reserve claims presuppose. -/
def reserveOk (reservePrice : Option ℤ) (amount : ℤ) : Bool :=
  match reservePrice with
  | none => true
  | some rp => decide (rp = 0) || decide (rp ≤ amount)

/-- The *idealized* reading of `AuctionScheduler.endAuction`
(`scheduler.js` lines 107–218): with the highest bid precomputed by
the sweep query and credited with the bidder (see `highestBid`), close
the auction as `'completed'` with that bidder as winner and the highest
amount as final price when a truthy highest bid exists and the reserve
is absent, zero, or met; otherwise close as `'ended'` with no winner
and the starting price as final price.  A completed close also inserts
the settlement `orders` row (lines 131–135).  In the program the
completed branch can never execute (see `endAuctionActual` and C3);
this idealization is kept as the reading most favorable to the
replayability claim, refuted a fortiori in C8. -/
def endAuction (s : AuctionState) : AuctionState × Option Order :=
  let a := s.auction
  match highestBid s.bids with
  | some h =>
    if h.bidderId ≠ 0 ∧ h.amount ≠ 0 ∧ reserveOk a.reservePrice h.amount then
      ({ auction :=
           { a with status := Status.completed, winnerId := some h.bidderId,
                    finalPrice := some h.amount },
         bids := s.bids },
       some { sellerId := a.sellerId, buyerId := h.bidderId,
              amount := h.amount })
    else
      ({ auction :=
           { a with status := Status.ended, winnerId := none,
                    finalPrice := some a.startingPrice },
         bids := s.bids }, none)
  | none =>
    ({ auction :=
         { a with status := Status.ended, winnerId := none,
                  finalPrice := some a.startingPrice },
       bids := s.bids }, none)

/-- The sweep's selection predicate (`scheduler.js` line 92):
`status = 'active' AND end_time <= NOW()`. -/
def sweepSelects (now : ℤ) (a : Auction) : Prop :=
  a.status = Status.active ∧ a.endTime ≤ now

/-- A `bids` row at the column level relevant to the scheduler's winner
subquery: the subquery reads `bids.user_id` (`scheduler.js` line 89),
while the bid route's INSERTs (`bids.js` lines 78–81 and 184–188) list
only `auction_id, bidder_id, amount, max_bid, is_winning, is_auto_bid,
created_at`.  Under the repository DDL (`database.js`) no `user_id`
column exists on `bids` at all and the sweep's SELECT errors; under a
schema where it exists, it is NULL on every row this route writes.
`userId` models that column; `bid` holds the columns the route does
write. -/
structure BidsRow where
  userId : Option Nat
  bid : Bid
  deriving DecidableEq, Repr

/-- A row as written by the bid route: the `user_id` column is absent
from its INSERT column lists, hence NULL. -/
def routeRow (b : Bid) : BidsRow :=
  { userId := none, bid := b }

/-- One step of `ORDER BY amount DESC, created_at ASC LIMIT 1`: keep
the earlier row unless a strictly higher amount appears. -/
def winnerStep (acc : Option BidsRow) (r : BidsRow) : Option BidsRow :=
  match acc with
  | none => some r
  | some h => if h.bid.amount < r.bid.amount then some r else some h

/-- The scheduler's winner subquery as written (`scheduler.js` lines
89–90): the `user_id` and `amount` of the highest-amount, earliest row
of the whole ledger. -/
def winnerSubquery (rows : List BidsRow) : Option BidsRow :=
  rows.foldl winnerStep none

/-- `AuctionScheduler.endAuction` driven by the sweep's winner
subqueries over the rows as stored: `auction.winner_id` is the highest
row's `user_id` and `auction.winning_bid` its amount, and the
truthiness guard `auction.winner_id && auction.winning_bid`
(`scheduler.js` line 116) sends a NULL winner id to the no-sale branch.
The sale branch (which additionally presumes a `'completed'` status, a
`final_price` column and an `orders` table the repository DDL lacks,
and the numeric reading of the reserve comparison) is unreachable for
any ledger the bid route wrote. -/
def endAuctionActual (a : Auction) (rows : List BidsRow) :
    Auction × Option Order :=
  match (winnerSubquery rows).bind (fun r => r.userId),
        (winnerSubquery rows).map (fun r => r.bid.amount) with
  | some u, some amt =>
    if u ≠ 0 ∧ amt ≠ 0 ∧ reserveOk a.reservePrice amt then
      ({ a with status := Status.completed, winnerId := some u,
                finalPrice := some amt },
       some { sellerId := a.sellerId, buyerId := u, amount := amt })
    else
      ({ a with status := Status.ended, winnerId := none,
                finalPrice := some a.startingPrice }, none)
  | _, _ =>
    ({ a with status := Status.ended, winnerId := none,
              finalPrice := some a.startingPrice }, none)

/-- A state satisfies the price/proxy invariant when the displayed
current price never exceeds the standing winner's proxy ceiling
(`max_bid`, defaulted to the bid amount). -/
def priceInv (s : AuctionState) : Prop :=
  ∀ w, lastWinning s.bids = some w →
    s.auction.currentPrice ≤ w.maxBid.getD w.amount

/-! ## Supporting lemmas -/

theorem lastWinning_append (l : List Bid) (b : Bid) :
    lastWinning (l ++ [b]) = if b.isWinning then some b else lastWinning l := by
  unfold lastWinning
  rw [List.reverse_append]
  cases hb : b.isWinning <;> simp [List.find?, hb]

/-- When every guard passes and buy-now does not trigger, `placeBid`
runs the proxy normal path. -/
theorem placeBid_normal (now : ℤ) (bidderId : Nat) (amount : ℤ)
    (maxBid : Option ℤ) (s : AuctionState)
    (hpay : invalidPayload amount maxBid = false)
    (hopen : auctionOpen now s.auction = true)
    (hself : s.auction.sellerId ≠ bidderId)
    (hmin : s.auction.currentPrice + minBidIncrement ≤ amount)
    (hbn : buyNowHit s.auction.buyNowPrice amount = false) :
    placeBid now bidderId amount maxBid s =
      normalBid now bidderId amount maxBid s := by
  have hmin' : ¬ amount < s.auction.currentPrice + minBidIncrement :=
    not_lt.mpr hmin
  simp [placeBid, hpay, hopen, hself, hmin', hbn]

/-- `finishBid` written out as an explicit pair. -/
theorem finishBid_eq (now : ℤ) (bidderId : Nat) (amount : ℤ)
    (maxBid : Option ℤ) (a0 a1 : Auction) (bids1 : List Bid)
    (p : ℤ) (f : Bool) :
    finishBid now bidderId amount maxBid a0 a1 bids1 p f =
      (BidResult.placed
         { amount := amount, currentPrice := p, isWinning := f,
           bidCount := a0.bidCount + 1,
           timeRemaining := max 0 ((a0.endTime - now) / 1000) },
       { auction := (if a0.endTime - now < fiveMinutesMs then
             { a1 with endTime := now + fiveMinutesMs } else a1),
         bids := bids1 ++
           [{ bidderId := bidderId, amount := amount,
              maxBid := some (maxBid.getD amount),
              isWinning := f, isAutoBid := false }] }) := by
  unfold finishBid
  split <;> rfl

/-- Normal path, absorbed branch (`newMaxBid <= currentMaxBid`). -/
theorem normalBid_absorbed (now : ℤ) (bidderId : Nat) (amount : ℤ)
    (maxBid : Option ℤ) (s : AuctionState) (w : Bid)
    (hw : lastWinning s.bids = some w)
    (hle : maxBid.getD amount ≤ w.maxBid.getD w.amount) :
    normalBid now bidderId amount maxBid s =
      finishBid now bidderId amount maxBid s.auction
        { s.auction with
          currentPrice := min (maxBid.getD amount + minBidIncrement) (w.maxBid.getD w.amount) }
        s.bids
        (min (maxBid.getD amount + minBidIncrement) (w.maxBid.getD w.amount))
        false := by
  unfold normalBid
  rw [hw]
  simp [hle]

/-- Normal path, takeover branch (`newMaxBid > currentMaxBid`): the
previous winning bids are flipped. -/
theorem normalBid_takeover (now : ℤ) (bidderId : Nat) (amount : ℤ)
    (maxBid : Option ℤ) (s : AuctionState) (w : Bid)
    (hw : lastWinning s.bids = some w)
    (hlt : w.maxBid.getD w.amount < maxBid.getD amount) :
    normalBid now bidderId amount maxBid s =
      finishBid now bidderId amount maxBid s.auction
        { s.auction with
          currentPrice := min (w.maxBid.getD w.amount + minBidIncrement) (maxBid.getD amount),
          bidCount := s.auction.bidCount + 1 }
        (s.bids.map (fun b =>
          if b.isWinning then { b with isWinning := false } else b))
        (min (w.maxBid.getD w.amount + minBidIncrement) (maxBid.getD amount))
        true := by
  unfold normalBid
  rw [hw]
  simp [not_le.mpr hlt]

/-- Normal path, first-bid branch (no winning bid on record). -/
theorem normalBid_first (now : ℤ) (bidderId : Nat) (amount : ℤ)
    (maxBid : Option ℤ) (s : AuctionState)
    (hw : lastWinning s.bids = none) :
    normalBid now bidderId amount maxBid s =
      finishBid now bidderId amount maxBid s.auction
        { s.auction with currentPrice := amount,
                         bidCount := s.auction.bidCount + 1 }
        s.bids amount true := by
  unfold normalBid
  rw [hw]

theorem finishBid_fst (now : ℤ) (bidderId : Nat) (amount : ℤ)
    (maxBid : Option ℤ) (a0 a1 : Auction) (bids1 : List Bid)
    (p : ℤ) (f : Bool) :
    (finishBid now bidderId amount maxBid a0 a1 bids1 p f).1 =
      BidResult.placed
        { amount := amount, currentPrice := p, isWinning := f,
          bidCount := a0.bidCount + 1,
          timeRemaining := max 0 ((a0.endTime - now) / 1000) } := rfl

theorem finishBid_currentPrice (now : ℤ) (bidderId : Nat) (amount : ℤ)
    (maxBid : Option ℤ) (a0 a1 : Auction) (bids1 : List Bid)
    (p : ℤ) (f : Bool) :
    (finishBid now bidderId amount maxBid a0 a1 bids1 p f).2.auction.currentPrice =
      a1.currentPrice := by
  unfold finishBid
  split <;> rfl

theorem finishBid_bidCount (now : ℤ) (bidderId : Nat) (amount : ℤ)
    (maxBid : Option ℤ) (a0 a1 : Auction) (bids1 : List Bid)
    (p : ℤ) (f : Bool) :
    (finishBid now bidderId amount maxBid a0 a1 bids1 p f).2.auction.bidCount =
      a1.bidCount := by
  unfold finishBid
  split <;> rfl

theorem finishBid_status (now : ℤ) (bidderId : Nat) (amount : ℤ)
    (maxBid : Option ℤ) (a0 a1 : Auction) (bids1 : List Bid)
    (p : ℤ) (f : Bool) :
    (finishBid now bidderId amount maxBid a0 a1 bids1 p f).2.auction.status =
      a1.status := by
  unfold finishBid
  split <;> rfl

theorem finishBid_endTime (now : ℤ) (bidderId : Nat) (amount : ℤ)
    (maxBid : Option ℤ) (a0 a1 : Auction) (bids1 : List Bid)
    (p : ℤ) (f : Bool) :
    (finishBid now bidderId amount maxBid a0 a1 bids1 p f).2.auction.endTime =
      (if a0.endTime - now < fiveMinutesMs then now + fiveMinutesMs
       else a1.endTime) := by
  unfold finishBid
  split <;> rfl

theorem finishBid_bids (now : ℤ) (bidderId : Nat) (amount : ℤ)
    (maxBid : Option ℤ) (a0 a1 : Auction) (bids1 : List Bid)
    (p : ℤ) (f : Bool) :
    (finishBid now bidderId amount maxBid a0 a1 bids1 p f).2.bids =
      bids1 ++
        [{ bidderId := bidderId, amount := amount,
           maxBid := some (maxBid.getD amount),
           isWinning := f, isAutoBid := false }] := rfl

/-- The normal path always reports a `placed` result. -/
theorem normalBid_fst (now : ℤ) (bidderId : Nat) (amount : ℤ)
    (maxBid : Option ℤ) (s : AuctionState) :
    ∃ ev, (normalBid now bidderId amount maxBid s).1 = BidResult.placed ev := by
  rcases h : lastWinning s.bids with _ | w
  · rw [normalBid_first now bidderId amount maxBid s h, finishBid_fst]
    exact ⟨_, rfl⟩
  · by_cases hle : maxBid.getD amount ≤ w.maxBid.getD w.amount
    · rw [normalBid_absorbed now bidderId amount maxBid s w h hle, finishBid_fst]
      exact ⟨_, rfl⟩
    · rw [normalBid_takeover now bidderId amount maxBid s w h (not_le.mp hle),
        finishBid_fst]
      exact ⟨_, rfl⟩

/-- The sub-minimum rejection of `bids.js` lines 59–65. -/
theorem placeBid_invalid_amount (now : ℤ) (bidderId : Nat) (amount : ℤ)
    (maxBid : Option ℤ) (s : AuctionState)
    (hpay : invalidPayload amount maxBid = false)
    (hopen : auctionOpen now s.auction = true)
    (hself : s.auction.sellerId ≠ bidderId)
    (hlow : amount < s.auction.currentPrice + minBidIncrement) :
    placeBid now bidderId amount maxBid s =
      (BidResult.invalidBidAmount (s.auction.currentPrice + minBidIncrement),
       s) := by
  simp [placeBid, hpay, hopen, hself, hlow]

/-- Any request against a non-active auction is rejected with the state
unchanged (either by payload validation or by the `FOR UPDATE` row
guard). -/
theorem placeBid_not_active (now : ℤ) (bidderId : Nat) (amount : ℤ)
    (maxBid : Option ℤ) (s : AuctionState)
    (h : s.auction.status ≠ Status.active) :
    (placeBid now bidderId amount maxBid s).2 = s ∧
      ((placeBid now bidderId amount maxBid s).1 = BidResult.validationFailed ∨
       (placeBid now bidderId amount maxBid s).1 =
         BidResult.auctionNotFoundOrEnded) := by
  have hopen : auctionOpen now s.auction = false := by
    unfold auctionOpen
    simp [h]
  unfold placeBid
  cases hp : invalidPayload amount maxBid <;> simp [hp, hopen]

/-- A bid returned by the winning-bid query is marked winning. -/
theorem lastWinning_isWinning (bids : List Bid) (w : Bid)
    (h : lastWinning bids = some w) : w.isWinning = true := by
  unfold lastWinning at h
  exact List.find?_some h

theorem winnerStep_userId_none (acc : Option BidsRow) (r : BidsRow)
    (hacc : acc.bind (fun x => x.userId) = none)
    (hr : r.userId = none) :
    (winnerStep acc r).bind (fun x => x.userId) = none := by
  cases acc with
  | none => simpa [winnerStep] using hr
  | some a =>
    have ha : a.userId = none := by simpa using hacc
    show ((if a.bid.amount < r.bid.amount then some r else some a).bind
      (fun x => x.userId)) = none
    split <;> simp [hr, ha]

/-- The winner subquery's `user_id` over rows all lacking a `user_id`
value is NULL. -/
theorem winnerSubquery_userId_none :
    ∀ (rows : List BidsRow) (acc : Option BidsRow),
      (∀ r ∈ rows, r.userId = none) →
      acc.bind (fun x => x.userId) = none →
      (rows.foldl winnerStep acc).bind (fun x => x.userId) = none := by
  intro rows
  induction rows with
  | nil =>
    intro acc _ hacc
    simpa using hacc
  | cons r rs ih =>
    intro acc h hacc
    rw [List.foldl_cons]
    exact ih (winnerStep acc r)
      (fun x hx => h x (List.mem_cons_of_mem _ hx))
      (winnerStep_userId_none acc r hacc (h r (List.mem_cons_self _ _)))

/-! ## Claim theorems -/

/-- **C6** (confirmed): every `PlaceBid` on an active auction (well-formed
payload, non-seller bidder) whose amount is below
`currentPrice + minIncrement` is rejected with `InvalidBidAmount`
carrying the computed minimum `currentPrice + minIncrement`, and the
auction's state — price, bid count, end time, winner and bid ledger —
is returned exactly unchanged. -/
theorem C6_invalid_bid_rejected (now : ℤ) (bidderId : Nat) (amount : ℤ)
    (maxBid : Option ℤ) (s : AuctionState)
    (hpay : invalidPayload amount maxBid = false)
    (hopen : auctionOpen now s.auction = true)
    (hself : s.auction.sellerId ≠ bidderId)
    (hlow : amount < s.auction.currentPrice + minBidIncrement) :
    placeBid now bidderId amount maxBid s =
      (BidResult.invalidBidAmount (s.auction.currentPrice + minBidIncrement),
       s) :=
  placeBid_invalid_amount now bidderId amount maxBid s hpay hopen hself hlow

/-- Concrete state for the C6 witness: an active auction standing at
$100.00 (10000 cents). -/
def c6ws : AuctionState :=
  { auction :=
      { sellerId := 9, startingPrice := 1000, currentPrice := 10000,
        reservePrice := none, buyNowPrice := none, endTime := 1000000000,
        status := Status.active, bidCount := 3, winnerId := none,
        finalPrice := none },
    bids := [] }

/-- Witness for C6: a $50.00 bid against a $100.00 standing price is
rejected with minimum $101.00 and the state is unchanged. -/
theorem C6_witness :
    placeBid 0 2 5000 none c6ws = (BidResult.invalidBidAmount 10100, c6ws) ∧
      c6ws.auction.currentPrice + minBidIncrement = 10100 :=
  ⟨(C6_invalid_bid_rejected 0 2 5000 none c6ws (by decide) (by decide)
      (by decide) (by decide)).trans (by decide), by decide⟩

/-- **C10** (confirmed): the minimum bid increment used by `PlaceBid`,
both in validation (a bid is rejected exactly when
`amount < currentPrice + 100` cents, i.e. one dollar, with the computed
minimum returned) and in the proxy price computation
(`min(M + 100, H)` / `min(H + 100, M)`), is the fixed constant
$1.00 = 100 cents; the `Auction` record carries no per-auction increment
attribute, so the increment cannot depend on one. -/
theorem C10_fixed_increment :
    minBidIncrement = 100 ∧
    ∀ (now : ℤ) (bidderId : Nat) (amount : ℤ) (maxBid : Option ℤ)
      (s : AuctionState),
      invalidPayload amount maxBid = false →
      auctionOpen now s.auction = true →
      s.auction.sellerId ≠ bidderId →
      ((amount < s.auction.currentPrice + 100 ↔
          placeBid now bidderId amount maxBid s =
            (BidResult.invalidBidAmount (s.auction.currentPrice + 100), s)) ∧
       (s.auction.currentPrice + 100 ≤ amount →
        buyNowHit s.auction.buyNowPrice amount = false →
        ∀ w, lastWinning s.bids = some w →
          (placeBid now bidderId amount maxBid s).2.auction.currentPrice =
            (if maxBid.getD amount ≤ w.maxBid.getD w.amount then
              min (maxBid.getD amount + 100) (w.maxBid.getD w.amount)
             else
              min (w.maxBid.getD w.amount + 100) (maxBid.getD amount)))) := by
  refine ⟨rfl, ?_⟩
  intro now bidderId amount maxBid s hpay hopen hself
  constructor
  · constructor
    · intro hlow
      exact placeBid_invalid_amount now bidderId amount maxBid s hpay hopen
        hself hlow
    · intro heq
      by_contra hge
      push_neg at hge
      have h1 := congrArg Prod.fst heq
      cases hbh : buyNowHit s.auction.buyNowPrice amount
      · rw [placeBid_normal now bidderId amount maxBid s hpay hopen hself hge
          hbh] at h1
        obtain ⟨ev, hev⟩ := normalBid_fst now bidderId amount maxBid s
        rw [hev] at h1
        exact BidResult.noConfusion h1
      · have h2 : (placeBid now bidderId amount maxBid s).1 =
            BidResult.buyNowSuccess (s.auction.buyNowPrice.getD 0) := by
          simp [placeBid, minBidIncrement, hpay, hopen, hself, hbh,
            not_lt.mpr hge]
        rw [h2] at h1
        exact BidResult.noConfusion h1
  · intro hmin hbn w hw
    rw [placeBid_normal now bidderId amount maxBid s hpay hopen hself hmin hbn]
    by_cases hle : maxBid.getD amount ≤ w.maxBid.getD w.amount
    · rw [normalBid_absorbed now bidderId amount maxBid s w hw hle,
        finishBid_currentPrice, if_pos hle]
      rfl
    · rw [normalBid_takeover now bidderId amount maxBid s w hw (not_le.mp hle),
        finishBid_currentPrice, if_neg hle]
      rfl

/-- The standing winning bid for the C10 witness state: bidder 1 at
$100.00 with proxy max $100.00. -/
def c10w : Bid :=
  { bidderId := 1, amount := 10000, maxBid := some 10000,
    isWinning := true, isAutoBid := false }

/-- Concrete state for the C10 witness. -/
def c10ws : AuctionState :=
  { auction :=
      { sellerId := 9, startingPrice := 1000, currentPrice := 10000,
        reservePrice := none, buyNowPrice := none, endTime := 1000000000,
        status := Status.active, bidCount := 1, winnerId := none,
        finalPrice := none },
    bids := [c10w] }

/-- Witness for C10: a $50.00 bid against $100.00 is rejected with
minimum $101.00, and a $101.00 bid with proxy max $150.00 lands the
price at exactly one $1.00 increment over the standing $100.00 max. -/
theorem C10_witness :
    minBidIncrement = 100 ∧
    placeBid 0 2 5000 none c10ws = (BidResult.invalidBidAmount 10100, c10ws) ∧
    (placeBid 0 2 10100 (some 15000) c10ws).2.auction.currentPrice = 10100 := by
  refine ⟨C10_fixed_increment.1, ?_, ?_⟩
  · exact ((C10_fixed_increment.2 0 2 5000 none c10ws (by decide) (by decide)
      (by decide)).1.mp (by decide)).trans (by decide)
  · exact ((C10_fixed_increment.2 0 2 10100 (some 15000) c10ws (by decide)
      (by decide) (by decide)).2 (by decide) (by decide) c10w
      (by decide)).trans (by decide)

/-- The standing winning bid for the C1 states: bidder 1 (bidder A)
with proxy max H = $100.00. -/
def c1w : Bid :=
  { bidderId := 1, amount := 10000, maxBid := some 10000,
    isWinning := true, isAutoBid := false }

/-- Concrete state for C1: an active auction whose standing winning bid
is `c1w`, price $100.00. -/
def c1s : AuctionState :=
  { auction :=
      { sellerId := 9, startingPrice := 1000, currentPrice := 10000,
        reservePrice := none, buyNowPrice := none, endTime := 1000000000,
        status := Status.active, bidCount := 1, winnerId := none,
        finalPrice := none },
    bids := [c1w] }

/-- **C1** (counterexample): the claim that on a takeover (`M > H`) the
new winning Bid is recorded at the computed price `min(M, H + inc)` is
false: bidder B's bid of $120.00 with proxy max $150.00 against a
standing max of $100.00 moves the price to $101.00, but the winning Bid
row is recorded at the submitted $120.00, not at $101.00. -/
theorem C1_counterexample :
    (placeBid 0 2 12000 (some 15000) c1s).2.bids.getLast?.map Bid.amount =
      some 12000 ∧
    (placeBid 0 2 12000 (some 15000) c1s).2.bids.getLast?.map Bid.isWinning =
      some true ∧
    (placeBid 0 2 12000 (some 15000) c1s).2.auction.currentPrice = 10100 ∧
    min (15000 : ℤ) (10000 + minBidIncrement) = 10100 ∧
    (12000 : ℤ) ≠ 10100 := by
  decide

/-- **C1** (amended): second-price proxy rule.  For an accepted
non-buy-now bid against a standing winning bid with proxy max `H` held
by A, where the new bid carries proxy max `M` (defaulting to its
amount): if `M > H`, B becomes the winning bidder, the new
`currentPrice` is `min(M, H + minIncrement)`, every previous winning Bid
is flipped to not-winning, and B's new winning Bid is recorded at the
*submitted amount* (storing proxy max `M`), not at the computed price;
if `M ≤ H` (ties keeping the earlier bidder), A's bid remains the
standing winning bid and the new `currentPrice` is
`min(H, M + minIncrement)`, the challenger's bid being recorded
not-winning. -/
theorem C1_proxy_second_price (now : ℤ) (bidderId : Nat) (amount : ℤ)
    (maxBid : Option ℤ) (s : AuctionState) (w : Bid)
    (hw : lastWinning s.bids = some w)
    (hpay : invalidPayload amount maxBid = false)
    (hopen : auctionOpen now s.auction = true)
    (hself : s.auction.sellerId ≠ bidderId)
    (hmin : s.auction.currentPrice + minBidIncrement ≤ amount)
    (hbn : buyNowHit s.auction.buyNowPrice amount = false) :
    (w.maxBid.getD w.amount < maxBid.getD amount →
      (placeBid now bidderId amount maxBid s).2.auction.currentPrice =
          min (maxBid.getD amount) (w.maxBid.getD w.amount + minBidIncrement) ∧
      (placeBid now bidderId amount maxBid s).2.bids =
          s.bids.map (fun b =>
            if b.isWinning then { b with isWinning := false } else b) ++
            [{ bidderId := bidderId, amount := amount,
               maxBid := some (maxBid.getD amount), isWinning := true,
               isAutoBid := false }] ∧
      lastWinning (placeBid now bidderId amount maxBid s).2.bids =
        some { bidderId := bidderId, amount := amount,
               maxBid := some (maxBid.getD amount), isWinning := true,
               isAutoBid := false }) ∧
    (maxBid.getD amount ≤ w.maxBid.getD w.amount →
      (placeBid now bidderId amount maxBid s).2.auction.currentPrice =
          min (w.maxBid.getD w.amount) (maxBid.getD amount + minBidIncrement) ∧
      (placeBid now bidderId amount maxBid s).2.bids =
          s.bids ++
            [{ bidderId := bidderId, amount := amount,
               maxBid := some (maxBid.getD amount), isWinning := false,
               isAutoBid := false }] ∧
      lastWinning (placeBid now bidderId amount maxBid s).2.bids = some w) := by
  rw [placeBid_normal now bidderId amount maxBid s hpay hopen hself hmin hbn]
  constructor
  · intro hlt
    rw [normalBid_takeover now bidderId amount maxBid s w hw hlt]
    refine ⟨?_, ?_, ?_⟩
    · rw [finishBid_currentPrice]
      exact min_comm _ _
    · rw [finishBid_bids]
    · rw [finishBid_bids, lastWinning_append]
      simp
  · intro hle
    rw [normalBid_absorbed now bidderId amount maxBid s w hw hle]
    refine ⟨?_, ?_, ?_⟩
    · rw [finishBid_currentPrice]
      exact min_comm _ _
    · rw [finishBid_bids]
    · rw [finishBid_bids, lastWinning_append]
      simpa using hw

/-- Witness for C1, the spec's own example: A stands at max $100.00,
B bids $101.00 with max $150.00; B becomes winning at exactly $101.00. -/
theorem C1_witness :
    (placeBid 0 2 10100 (some 15000) c1s).2.auction.currentPrice = 10100 ∧
    lastWinning (placeBid 0 2 10100 (some 15000) c1s).2.bids =
      some { bidderId := 2, amount := 10100, maxBid := some 15000,
             isWinning := true, isAutoBid := false } := by
  have h := (C1_proxy_second_price 0 2 10100 (some 15000) c1s c1w (by decide)
    (by decide) (by decide) (by decide) (by decide) (by decide)).1 (by decide)
  exact ⟨h.1.trans (by decide), h.2.2.trans (by decide)⟩

/-- Concrete state for the C2 counterexample: buy-now $100.00 with the
standing price already at $100.00. -/
def c2s : AuctionState :=
  { auction :=
      { sellerId := 9, startingPrice := 1000, currentPrice := 10000,
        reservePrice := none, buyNowPrice := some 10000,
        endTime := 1000000000, status := Status.active, bidCount := 0,
        winnerId := none, finalPrice := none },
    bids := [] }

/-- **C2** (counterexample): a bid whose amount meets the buy-now price
is *not* always a buy-now sale: with `buyNowPrice = $100.00` and
`currentPrice = $100.00`, a $100.00 bid satisfies
`amount ≥ buyNowPrice` yet is rejected by the minimum-increment
validation (which runs first), leaving the auction active. -/
theorem C2_counterexample :
    (10000 : ℤ) ≤ 10000 ∧
    c2s.auction.buyNowPrice = some 10000 ∧
    placeBid 0 2 10000 none c2s = (BidResult.invalidBidAmount 10100, c2s) ∧
    (placeBid 0 2 10000 none c2s).2.auction.status ≠ Status.sold := by
  decide

/-- **C2** (amended): buy-now short-circuit.  For a `PlaceBid` on an
active auction with `buyNowPrice = bn` set (nonzero), if the submitted
amount passes the minimum-increment validation
(`amount ≥ currentPrice + minIncrement`) *and* `amount ≥ bn`, the
auction immediately becomes `sold` with `winnerId` the bidder,
`currentPrice = bn` and `endTime = now`, regardless of prior bid
history and bypassing the proxy logic; and every `PlaceBid` submitted
on the resulting auction afterwards is rejected with the state
unchanged. -/
theorem C2_buy_now_short_circuit (now : ℤ) (bidderId : Nat) (amount : ℤ)
    (maxBid : Option ℤ) (s : AuctionState) (bn : ℤ)
    (hpay : invalidPayload amount maxBid = false)
    (hopen : auctionOpen now s.auction = true)
    (hself : s.auction.sellerId ≠ bidderId)
    (hmin : s.auction.currentPrice + minBidIncrement ≤ amount)
    (hbnp : s.auction.buyNowPrice = some bn)
    (hbn0 : bn ≠ 0)
    (hge : bn ≤ amount) :
    (placeBid now bidderId amount maxBid s).1 = BidResult.buyNowSuccess bn ∧
    (placeBid now bidderId amount maxBid s).2.auction.status = Status.sold ∧
    (placeBid now bidderId amount maxBid s).2.auction.winnerId =
      some bidderId ∧
    (placeBid now bidderId amount maxBid s).2.auction.currentPrice = bn ∧
    (placeBid now bidderId amount maxBid s).2.auction.endTime = now ∧
    (∀ (a : ℤ) (b : Nat) (c : ℤ) (d : Option ℤ),
      (placeBid a b c d (placeBid now bidderId amount maxBid s).2).2 =
        (placeBid now bidderId amount maxBid s).2 ∧
      ((placeBid a b c d (placeBid now bidderId amount maxBid s).2).1 =
          BidResult.validationFailed ∨
       (placeBid a b c d (placeBid now bidderId amount maxBid s).2).1 =
          BidResult.auctionNotFoundOrEnded)) := by
  have hbh : buyNowHit (some bn) amount = true := by
    unfold buyNowHit
    simp [hbn0, hge]
  have hres : placeBid now bidderId amount maxBid s =
      (BidResult.buyNowSuccess bn,
       { auction :=
           { s.auction with currentPrice := bn, status := Status.sold,
                            winnerId := some bidderId, endTime := now },
         bids := s.bids ++
           [{ bidderId := bidderId, amount := bn, maxBid := none,
              isWinning := true, isAutoBid := false }] }) := by
    simp [placeBid, hpay, hopen, hself, not_lt.mpr hmin, hbh, hbnp]
  rw [hres]
  refine ⟨rfl, rfl, rfl, rfl, rfl, ?_⟩
  intro a b c d
  exact placeBid_not_active a b c d _ (by simp)

/-- Concrete state for the C2 witness: price $50.00, buy-now $60.00. -/
def c2ws : AuctionState :=
  { auction :=
      { sellerId := 9, startingPrice := 1000, currentPrice := 5000,
        reservePrice := none, buyNowPrice := some 6000,
        endTime := 1000000000, status := Status.active, bidCount := 0,
        winnerId := none, finalPrice := none },
    bids := [] }

/-- Witness for C2: a $60.00 bid buys now at $60.00, and a later bid on
the sold auction bounces off with the state unchanged. -/
theorem C2_witness :
    (placeBid 0 2 6000 none c2ws).1 = BidResult.buyNowSuccess 6000 ∧
    (placeBid 0 2 6000 none c2ws).2.auction.status = Status.sold ∧
    (placeBid 5 3 7000 none (placeBid 0 2 6000 none c2ws).2).2 =
      (placeBid 0 2 6000 none c2ws).2 := by
  have h := C2_buy_now_short_circuit 0 2 6000 none c2ws 6000 (by decide)
    (by decide) (by decide) (by decide) (by decide) (by decide) (by decide)
  exact ⟨h.1, h.2.1, (h.2.2.2.2.2 5 3 7000 none).1⟩

/-- Concrete failing input for C3: an active auction past its end time
(the sweep selects it at `now = 200`), reserve $200.00. -/
def c3a : Auction :=
  { sellerId := 9, startingPrice := 1000, currentPrice := 25000,
    reservePrice := some 20000, buyNowPrice := none, endTime := 100,
    status := Status.active, bidCount := 1, winnerId := none,
    finalPrice := none }

/-- Its ledger: one bid of $250.00 — above the reserve — recorded by
the bid route (bidder 1). -/
def c3bids : List Bid :=
  [{ bidderId := 1, amount := 25000, maxBid := some 25000,
     isWinning := true, isAutoBid := false }]

/-- **C3** (code bug): the sold-with-winner close the claim describes
can never happen.  The sweep's winner subquery reads `bids.user_id`
(`scheduler.js` line 89), but the bid route writes `bidder_id` and the
repository DDL (`database.js`) defines no `user_id` column on `bids` —
against that schema the SELECT errors and no auction is processed;
under a schema where the column exists, it is NULL on every row the
route writes - the first conjunct - so `auction.winner_id` is falsy and
`endAuction` always takes the no-sale branch.  At the claim's own
example (`c3a`, reserve $200.00 met by a $250.00 highest bid, selected
by the sweep), the close yields status `'ended'` with no winner and no
settlement order instead of the claimed sale. -/
theorem C3_winner_column_bug :
    (∀ (bids : List Bid),
      (winnerSubquery (bids.map routeRow)).bind (fun r => r.userId) =
        none) ∧
    sweepSelects 200 c3a ∧
    reserveOk c3a.reservePrice 25000 = true ∧
    (winnerSubquery (c3bids.map routeRow)).map (fun r => r.bid.amount) =
      some 25000 ∧
    endAuctionActual c3a (c3bids.map routeRow) =
      ({ c3a with status := Status.ended, winnerId := none,
                  finalPrice := some c3a.startingPrice }, none) := by
  refine ⟨?_, ⟨rfl, by decide⟩, by decide, by decide, by decide⟩
  intro bids
  unfold winnerSubquery
  refine winnerSubquery_userId_none (bids.map routeRow) none ?_ rfl
  intro r hr
  obtain ⟨b, -, rfl⟩ := List.mem_map.mp hr
  rfl

/-- Concrete state for C4: an active auction with a standing winning bid
and buy-now $60.00. -/
def c4s : AuctionState :=
  { auction :=
      { sellerId := 9, startingPrice := 1000, currentPrice := 5000,
        reservePrice := none, buyNowPrice := some 6000,
        endTime := 1000000000, status := Status.active, bidCount := 1,
        winnerId := none, finalPrice := none },
    bids := [{ bidderId := 1, amount := 5000, maxBid := some 5000,
               isWinning := true, isAutoBid := false }] }

/-- **C4** (code bug): the single-winner invariant is broken by the
buy-now branch, which inserts a new `isWinning = true` Bid without
flipping the previous winning bid (`bids.js` lines 78–81 lack the
`UPDATE bids SET is_winning = false` of the normal path, line 152):
after a buy-now purchase on `c4s`, two bids carry `isWinning = true`. -/
theorem C4_buy_now_double_winner :
    (placeBid 0 2 6000 none c4s).1 = BidResult.buyNowSuccess 6000 ∧
    (placeBid 0 2 6000 none c4s).2.auction.status = Status.sold ∧
    (placeBid 0 2 6000 none c4s).2.bids.countP (fun b => b.isWinning) = 2 := by
  decide

/-- Concrete state for the C5 counterexample: buy-now $60.00 and only
two minutes to the end time. -/
def c5s : AuctionState :=
  { auction :=
      { sellerId := 9, startingPrice := 1000, currentPrice := 5000,
        reservePrice := none, buyNowPrice := some 6000, endTime := 120000,
        status := Status.active, bidCount := 0, winnerId := none,
        finalPrice := none },
    bids := [] }

/-- **C5** (counterexample): not every accepted bid inside the five-minute
window resets `endTime` to `now + 5 minutes`: a buy-now purchase
accepted two minutes before the end sets `endTime = now`, which both
differs from `now + 5 minutes` and *shortens* the end time. -/
theorem C5_counterexample :
    (placeBid 0 2 6000 none c5s).1 = BidResult.buyNowSuccess 6000 ∧
    c5s.auction.endTime - 0 < fiveMinutesMs ∧
    (placeBid 0 2 6000 none c5s).2.auction.endTime = 0 ∧
    (0 : ℤ) ≠ 0 + fiveMinutesMs ∧
    (placeBid 0 2 6000 none c5s).2.auction.endTime < c5s.auction.endTime := by
  decide

/-- The anti-snipe update leaves the rest of the normal path's end-time
handling uniform across its three branches. -/
theorem normalBid_endTime (now : ℤ) (bidderId : Nat) (amount : ℤ)
    (maxBid : Option ℤ) (s : AuctionState) :
    (normalBid now bidderId amount maxBid s).2.auction.endTime =
      (if s.auction.endTime - now < fiveMinutesMs then now + fiveMinutesMs
       else s.auction.endTime) := by
  rcases h : lastWinning s.bids with _ | w
  · rw [normalBid_first now bidderId amount maxBid s h, finishBid_endTime]
  · by_cases hle : maxBid.getD amount ≤ w.maxBid.getD w.amount
    · rw [normalBid_absorbed now bidderId amount maxBid s w h hle,
        finishBid_endTime]
    · rw [normalBid_takeover now bidderId amount maxBid s w h (not_le.mp hle),
        finishBid_endTime]

/-- **C5** (amended): anti-snipe extension on the normal path.  Whenever
a non-buy-now bid is accepted and the auction's `endTime − now` is less
than the five-minute window, `endTime` is reset to `now + 5 minutes`; a
bid accepted with `endTime − now ≥ 5 minutes` leaves `endTime`
unchanged; and such an acceptance never shortens `endTime`.  (A
buy-now acceptance instead sets `endTime = now`.) -/
theorem C5_anti_snipe (now : ℤ) (bidderId : Nat) (amount : ℤ)
    (maxBid : Option ℤ) (s : AuctionState)
    (hpay : invalidPayload amount maxBid = false)
    (hopen : auctionOpen now s.auction = true)
    (hself : s.auction.sellerId ≠ bidderId)
    (hmin : s.auction.currentPrice + minBidIncrement ≤ amount)
    (hbn : buyNowHit s.auction.buyNowPrice amount = false) :
    (s.auction.endTime - now < fiveMinutesMs →
      (placeBid now bidderId amount maxBid s).2.auction.endTime =
        now + fiveMinutesMs) ∧
    (fiveMinutesMs ≤ s.auction.endTime - now →
      (placeBid now bidderId amount maxBid s).2.auction.endTime =
        s.auction.endTime) ∧
    s.auction.endTime ≤
      (placeBid now bidderId amount maxBid s).2.auction.endTime := by
  rw [placeBid_normal now bidderId amount maxBid s hpay hopen hself hmin hbn,
    normalBid_endTime]
  refine ⟨?_, ?_, ?_⟩
  · intro hlt
    rw [if_pos hlt]
  · intro hge
    rw [if_neg (not_lt.mpr hge)]
  · split
    · next hlt => omega
    · exact le_refl _

/-- C5 witness state: two minutes remaining. -/
def c5ws : AuctionState :=
  { auction :=
      { sellerId := 9, startingPrice := 1000, currentPrice := 5000,
        reservePrice := none, buyNowPrice := none, endTime := 120000,
        status := Status.active, bidCount := 0, winnerId := none,
        finalPrice := none },
    bids := [] }

/-- C5 witness state: ten minutes remaining. -/
def c5ws2 : AuctionState :=
  { auction :=
      { sellerId := 9, startingPrice := 1000, currentPrice := 5000,
        reservePrice := none, buyNowPrice := none, endTime := 600000,
        status := Status.active, bidCount := 0, winnerId := none,
        finalPrice := none },
    bids := [] }

/-- Witness for C5, the spec's example: a bid at `endTime − 2 minutes`
moves `endTime` to `now + 5 minutes`; a bid at `endTime − 10 minutes`
leaves it unchanged. -/
theorem C5_witness :
    (placeBid 0 2 5100 none c5ws).2.auction.endTime = 0 + fiveMinutesMs ∧
    (placeBid 0 2 5100 none c5ws2).2.auction.endTime = 600000 := by
  have h1 := (C5_anti_snipe 0 2 5100 none c5ws (by decide) (by decide)
    (by decide) (by decide) (by decide)).1 (by decide)
  have h2 := (C5_anti_snipe 0 2 5100 none c5ws2 (by decide) (by decide)
    (by decide) (by decide) (by decide)).2.1 (by decide)
  exact ⟨h1, h2.trans (by decide)⟩

/-- Base state for the C7 counterexample trace: a fresh active auction
at $10.00. -/
def c7s0 : AuctionState :=
  { auction :=
      { sellerId := 9, startingPrice := 1000, currentPrice := 1000,
        reservePrice := none, buyNowPrice := none, endTime := 1000000000,
        status := Status.active, bidCount := 0, winnerId := none,
        finalPrice := none },
    bids := [] }

/-- After bidder 1 bids $100.00 (max $100.00) on `c7s0`. -/
def c7s1 : AuctionState := (placeBid 0 1 10000 (some 10000) c7s0).2

/-- After bidder 2 bids $150.00 (max $150.00) on `c7s1`: bidder 2 takes
over, recorded winning at $150.00 while the price moves to $101.00. -/
def c7s2 : AuctionState := (placeBid 0 2 15000 (some 15000) c7s1).2

/-- After bidder 3 bids $102.00 (max $200.00) on `c7s2`: bidder 3 takes
over, recorded winning at $102.00. -/
def c7s3 : AuctionState := (placeBid 0 3 10200 (some 20000) c7s2).2

/-- **C7** (counterexample): the sequence of amounts of the bids marked
winning is *not* non-decreasing: on the trace
`c7s0 → c7s1 → c7s2 → c7s3` of three accepted bids, the winning-bid
amount goes $100.00, $150.00, then $102.00 — the third accepted bid
decreases it while the auction is still active (winning bids are
recorded at the submitted amount, which can sit far below the previous
winner's recorded amount once proxy resolution has kept the visible
price low). -/
theorem C7_counterexample :
    (lastWinning c7s1.bids).map Bid.amount = some 10000 ∧
    (lastWinning c7s2.bids).map Bid.amount = some 15000 ∧
    (placeBid 0 3 10200 (some 20000) c7s2).1 =
      BidResult.placed
        { amount := 10200, currentPrice := 15100, isWinning := true,
          bidCount := 3, timeRemaining := 1000000 } ∧
    (lastWinning c7s3.bids).map Bid.amount = some 10200 ∧
    c7s3.auction.status = Status.active ∧
    (10200 : ℤ) < 15000 := by
  decide

/-- **C7** (amended): monotonic *price*.  From any state satisfying the
reachable-state invariant `priceInv` (the displayed price never exceeds
the standing winner's proxy ceiling), an accepted non-buy-now bid whose
proxy max (when given) is at least its amount never decreases
`currentPrice`, preserves `priceInv`, and leaves the auction active.
The recorded winning-bid *amounts*, by contrast, are not monotone (see
the counterexample). -/
theorem C7_price_monotone (now : ℤ) (bidderId : Nat) (amount : ℤ)
    (maxBid : Option ℤ) (s : AuctionState)
    (hpay : invalidPayload amount maxBid = false)
    (hopen : auctionOpen now s.auction = true)
    (hself : s.auction.sellerId ≠ bidderId)
    (hmin : s.auction.currentPrice + minBidIncrement ≤ amount)
    (hbn : buyNowHit s.auction.buyNowPrice amount = false)
    (hinv : priceInv s)
    (hmb : ∀ m, maxBid = some m → amount ≤ m) :
    s.auction.currentPrice ≤
      (placeBid now bidderId amount maxBid s).2.auction.currentPrice ∧
    priceInv (placeBid now bidderId amount maxBid s).2 ∧
    (placeBid now bidderId amount maxBid s).2.auction.status =
      Status.active := by
  have hM : amount ≤ maxBid.getD amount := by
    cases maxBid with
    | none => exact le_refl _
    | some m => exact hmb m rfl
  have hinc : (0 : ℤ) < minBidIncrement := by decide
  have hact : s.auction.status = Status.active := by
    unfold auctionOpen at hopen
    simp only [Bool.and_eq_true, decide_eq_true_eq] at hopen
    exact hopen.1
  rw [placeBid_normal now bidderId amount maxBid s hpay hopen hself hmin hbn]
  rcases h : lastWinning s.bids with _ | w
  · rw [normalBid_first now bidderId amount maxBid s h]
    refine ⟨?_, ?_, ?_⟩
    · rw [finishBid_currentPrice]
      show s.auction.currentPrice ≤ amount
      omega
    · intro w' hw'
      rw [finishBid_bids, lastWinning_append] at hw'
      simp only [if_true] at hw'
      obtain rfl := Option.some.inj hw'
      rw [finishBid_currentPrice]
      show amount ≤ (some (maxBid.getD amount)).getD amount
      simpa using hM
    · rw [finishBid_status]
      exact hact
  · have hwB := hinv w h
    by_cases hle : maxBid.getD amount ≤ w.maxBid.getD w.amount
    · rw [normalBid_absorbed now bidderId amount maxBid s w h hle]
      refine ⟨?_, ?_, ?_⟩
      · rw [finishBid_currentPrice]
        show s.auction.currentPrice ≤
          min (maxBid.getD amount + minBidIncrement) (w.maxBid.getD w.amount)
        exact le_min (by omega) hwB
      · intro w' hw'
        rw [finishBid_bids, lastWinning_append] at hw'
        simp only [if_false] at hw'
        rw [h] at hw'
        obtain rfl := Option.some.inj hw'
        rw [finishBid_currentPrice]
        show min (maxBid.getD amount + minBidIncrement)
          (w.maxBid.getD w.amount) ≤ w.maxBid.getD w.amount
        exact min_le_right _ _
      · rw [finishBid_status]
        exact hact
    · rw [normalBid_takeover now bidderId amount maxBid s w h (not_le.mp hle)]
      refine ⟨?_, ?_, ?_⟩
      · rw [finishBid_currentPrice]
        show s.auction.currentPrice ≤
          min (w.maxBid.getD w.amount + minBidIncrement) (maxBid.getD amount)
        exact le_min (by omega) (by omega)
      · intro w' hw'
        rw [finishBid_bids, lastWinning_append] at hw'
        simp only [if_true] at hw'
        obtain rfl := Option.some.inj hw'
        rw [finishBid_currentPrice]
        show min (w.maxBid.getD w.amount + minBidIncrement)
          (maxBid.getD amount) ≤ (some (maxBid.getD amount)).getD amount
        simp [min_le_right]
      · rw [finishBid_status]
        exact hact

/-- C7 witness state: standing winner at $100.00 max, price $100.00. -/
def c7ws : AuctionState :=
  { auction :=
      { sellerId := 9, startingPrice := 1000, currentPrice := 10000,
        reservePrice := none, buyNowPrice := none, endTime := 1000000000,
        status := Status.active, bidCount := 1, winnerId := none,
        finalPrice := none },
    bids := [{ bidderId := 1, amount := 10000, maxBid := some 10000,
               isWinning := true, isAutoBid := false }] }

/-- Witness for C7: an accepted $101.00 bid with max $150.00 does not
decrease the price and keeps the auction active. -/
theorem C7_witness :
    c7ws.auction.currentPrice ≤
      (placeBid 0 2 10100 (some 15000) c7ws).2.auction.currentPrice ∧
    (placeBid 0 2 10100 (some 15000) c7ws).2.auction.status =
      Status.active := by
  have h := C7_price_monotone 0 2 10100 (some 15000) c7ws (by decide)
    (by decide) (by decide) (by decide) (by decide)
    (by
      intro w hw
      obtain rfl := Option.some.inj
        ((by decide : lastWinning c7ws.bids =
            some { bidderId := 1, amount := 10000, maxBid := some 10000,
                   isWinning := true, isAutoBid := false }).symm.trans hw)
      decide)
    (by
      intro m hm
      obtain rfl := Option.some.inj hm
      decide)
  exact ⟨h.1, h.2.2⟩

/-- Base state for the C8 trace: a fresh active auction at $10.00. -/
def c8s0 : AuctionState :=
  { auction :=
      { sellerId := 9, startingPrice := 1000, currentPrice := 1000,
        reservePrice := none, buyNowPrice := none, endTime := 1000000000,
        status := Status.active, bidCount := 0, winnerId := none,
        finalPrice := none },
    bids := [] }

/-- After bidder 1 bids $50.00 with proxy max $200.00 on `c8s0`. -/
def c8s1 : AuctionState := (placeBid 0 1 5000 (some 20000) c8s0).2

/-- After bidder 2 bids $51.00 with proxy max $60.00 on `c8s1`: the bid
is absorbed ($51.00 < $200.00 ceiling), recorded not-winning at $51.00,
and the price moves to $61.00. -/
def c8s2 : AuctionState := (placeBid 0 2 5100 (some 6000) c8s1).2

/-- **C8** (code bug): recomputing the winner and price from the ordered
Bid history does *not* match the incrementally maintained state.  On
`c8s2`, the bid marked `isWinning = true` belongs to bidder 1 and the
maintained `currentPrice` is $61.00, but the scheduler's
highest-amount recomputation (`highestBid`, the `ORDER BY amount DESC`
subquery) names bidder 2 with amount $51.00, and `endAuction`
accordingly crowns bidder 2 at final price $51.00. -/
theorem C8_replay_divergence :
    (lastWinning c8s2.bids).map Bid.bidderId = some 1 ∧
    (lastWinning c8s2.bids).map Bid.isWinning = some true ∧
    (highestBid c8s2.bids).map Bid.bidderId = some 2 ∧
    (highestBid c8s2.bids).map Bid.amount = some 5100 ∧
    c8s2.auction.currentPrice = 6100 ∧
    (endAuction c8s2).1.auction.winnerId = some 2 ∧
    (endAuction c8s2).1.auction.finalPrice = some 5100 ∧
    ((2 : Nat) ≠ 1) ∧ ((5100 : ℤ) ≠ 6100) := by
  decide

/-- Concrete state for the C9 counterexample: standing winner with proxy
max $200.00, price $50.00, bid count 1, two minutes to the end. -/
def c9s : AuctionState :=
  { auction :=
      { sellerId := 9, startingPrice := 1000, currentPrice := 5000,
        reservePrice := none, buyNowPrice := none, endTime := 120000,
        status := Status.active, bidCount := 1, winnerId := none,
        finalPrice := none },
    bids := [{ bidderId := 1, amount := 5000, maxBid := some 20000,
               isWinning := true, isAutoBid := false }] }

/-- **C9** (counterexample): an accepted absorbed bid on `c9s` leaves
the database `bid_count` at 1 (not incremented), yet the `bid_placed`
event reports `bidCount = 2`; and with the anti-snipe extension moving
`endTime` to 300000 ms, the event still reports `timeRemaining = 120` s,
measured against the pre-extension end time rather than the extended
one (which would give 300 s). -/
theorem C9_counterexample :
    (placeBid 0 2 5100 (some 6000) c9s).1 =
      BidResult.placed
        { amount := 5100, currentPrice := 6100, isWinning := false,
          bidCount := 2, timeRemaining := 120 } ∧
    (placeBid 0 2 5100 (some 6000) c9s).2.auction.bidCount = 1 ∧
    (placeBid 0 2 5100 (some 6000) c9s).2.auction.endTime = 300000 ∧
    ((300000 : ℤ) - 0) / 1000 = 300 ∧
    ((120 : ℤ) ≠ 300) ∧ ((2 : Nat) ≠ 1) := by
  decide

/-- **C9** (amended): normal-path effect.  Every accepted non-buy-now
bid appends exactly one Bid row and emits a `bid_placed` event whose
`currentPrice` is the resulting post-operation price and whose winner
flag `f` is the appended bid's stored `isWinning` — true exactly when
that bid is the resulting standing winning bid; but the event's
`bidCount` is always the pre-call count plus one and its
`timeRemaining` is measured against the pre-extension `endTime`, while
the database `bid_count` is incremented only on a first bid or a
takeover and left unchanged when the bid is absorbed by the standing
proxy. -/
theorem C9_normal_effect (now : ℤ) (bidderId : Nat) (amount : ℤ)
    (maxBid : Option ℤ) (s : AuctionState)
    (hpay : invalidPayload amount maxBid = false)
    (hopen : auctionOpen now s.auction = true)
    (hself : s.auction.sellerId ≠ bidderId)
    (hmin : s.auction.currentPrice + minBidIncrement ≤ amount)
    (hbn : buyNowHit s.auction.buyNowPrice amount = false) :
    (placeBid now bidderId amount maxBid s).2.bids.length =
      s.bids.length + 1 ∧
    (∃ p f, (placeBid now bidderId amount maxBid s).1 =
        BidResult.placed
          { amount := amount, currentPrice := p, isWinning := f,
            bidCount := s.auction.bidCount + 1,
            timeRemaining := max 0 ((s.auction.endTime - now) / 1000) } ∧
      (placeBid now bidderId amount maxBid s).2.auction.currentPrice = p ∧
      (placeBid now bidderId amount maxBid s).2.bids.getLast? =
        some { bidderId := bidderId, amount := amount,
               maxBid := some (maxBid.getD amount), isWinning := f,
               isAutoBid := false } ∧
      (f = true ↔
        lastWinning (placeBid now bidderId amount maxBid s).2.bids =
          some { bidderId := bidderId, amount := amount,
                 maxBid := some (maxBid.getD amount), isWinning := f,
                 isAutoBid := false })) ∧
    (∀ w, lastWinning s.bids = some w →
      maxBid.getD amount ≤ w.maxBid.getD w.amount →
      (placeBid now bidderId amount maxBid s).2.auction.bidCount =
        s.auction.bidCount) ∧
    (∀ w, lastWinning s.bids = some w →
      w.maxBid.getD w.amount < maxBid.getD amount →
      (placeBid now bidderId amount maxBid s).2.auction.bidCount =
        s.auction.bidCount + 1) ∧
    (lastWinning s.bids = none →
      (placeBid now bidderId amount maxBid s).2.auction.bidCount =
        s.auction.bidCount + 1) := by
  rw [placeBid_normal now bidderId amount maxBid s hpay hopen hself hmin hbn]
  rcases h : lastWinning s.bids with _ | w
  · rw [normalBid_first now bidderId amount maxBid s h]
    refine ⟨?_, ⟨amount, true, ?_, ?_, ?_, ?_⟩, ?_, ?_, ?_⟩
    · rw [finishBid_bids]
      simp
    · rw [finishBid_fst]
    · rw [finishBid_currentPrice]
    · rw [finishBid_bids]
      simp
    · refine iff_of_true rfl ?_
      rw [finishBid_bids, lastWinning_append]
      simp
    · intro w' hw'
      exact Option.noConfusion hw'
    · intro w' hw'
      exact Option.noConfusion hw'
    · intro _
      rw [finishBid_bidCount]
  · by_cases hle : maxBid.getD amount ≤ w.maxBid.getD w.amount
    · rw [normalBid_absorbed now bidderId amount maxBid s w h hle]
      refine ⟨?_, ⟨min (maxBid.getD amount + minBidIncrement)
        (w.maxBid.getD w.amount), false, ?_, ?_, ?_, ?_⟩, ?_, ?_, ?_⟩
      · rw [finishBid_bids]
        simp
      · rw [finishBid_fst]
      · rw [finishBid_currentPrice]
      · rw [finishBid_bids]
        simp
      · refine iff_of_false (by simp) ?_
        intro hcon
        rw [finishBid_bids, lastWinning_append] at hcon
        simp only [Bool.false_eq_true, if_false] at hcon
        rw [h] at hcon
        have hwnb := Option.some.inj hcon
        have hwin := lastWinning_isWinning s.bids w h
        rw [hwnb] at hwin
        simp at hwin
      · intro w' hw' _
        rw [finishBid_bidCount]
      · intro w' hw' hlt'
        obtain rfl := Option.some.inj hw'
        omega
      · intro hn
        exact Option.noConfusion hn
    · rw [normalBid_takeover now bidderId amount maxBid s w h (not_le.mp hle)]
      refine ⟨?_, ⟨min (w.maxBid.getD w.amount + minBidIncrement)
        (maxBid.getD amount), true, ?_, ?_, ?_, ?_⟩, ?_, ?_, ?_⟩
      · rw [finishBid_bids]
        simp
      · rw [finishBid_fst]
      · rw [finishBid_currentPrice]
      · rw [finishBid_bids]
        simp
      · refine iff_of_true rfl ?_
        rw [finishBid_bids, lastWinning_append]
        simp
      · intro w' hw' hle'
        obtain rfl := Option.some.inj hw'
        omega
      · intro w' hw' _
        rw [finishBid_bidCount]
      · intro hn
        exact Option.noConfusion hn

/-- Witness for C9: the absorbed-bid case on `c9s` — one row appended,
database `bid_count` unchanged at 1. -/
theorem C9_witness :
    (placeBid 0 2 5100 (some 6000) c9s).2.bids.length = 2 ∧
    (placeBid 0 2 5100 (some 6000) c9s).2.auction.bidCount = 1 := by
  have h := C9_normal_effect 0 2 5100 (some 6000) c9s (by decide) (by decide)
    (by decide) (by decide) (by decide)
  refine ⟨h.1.trans (by decide), ?_⟩
  exact (h.2.2.1 { bidderId := 1, amount := 5000, maxBid := some 20000,
                   isWinning := true, isAutoBid := false }
    (by decide) (by decide)).trans (by decide)

end EBid
